import Mathlib

/-!
# Verification of the PhysiCell_Settings rule-encoding and serialization subsystem

Shallow embedding of `physicell_config/modules/cell_rules.py` and
`physicell_config/modules/physiboss.py`.

Modelling conventions:
* Python `float` values are modelled as exact rationals (`Rat`).  Python's
  numeric text layer (`repr`/`str` on write, `float()`/`int()` on read) is a
  value-faithful pair (`float(repr(x)) == x`); it is modelled here by an
  executable rational printer/parser pair proved to be a left-inverse pair.
  `float()`/`int()` tolerate surrounding whitespace, which the parser mirrors.
* A CSV file is modelled at the row level as `List (List String)` (the Python
  `csv` module's reader/writer pair is an external library inverse handling
  quoting); a missing file is modelled by `Option` on the file contents.
* Python exceptions are modelled by `Except`/an error sum; a method that
  mutates `self` and then raises is modelled by returning the mutated state
  together with an optional error.
* Python `dict`s (insertion-ordered) are modelled as association lists.
-/

/-! ## Decimal text codec for integers and rationals -/

/-- The character for a single decimal digit. -/
def digitChar (n : Nat) : Char := Char.ofNat (48 + n)

/-- Big-endian decimal digits of a natural number, fuel-based so that the
kernel can reduce it. -/
def natToDigitsFuel : Nat → Nat → List Char
  | 0, _ => []
  | fuel + 1, n =>
    if n < 10 then [digitChar n]
    else natToDigitsFuel fuel (n / 10) ++ [digitChar (n % 10)]

/-- Big-endian decimal digits of a natural number. -/
def natToDigits (n : Nat) : List Char := natToDigitsFuel (n + 1) n

/-- Numeric value of a decimal digit character, if it is one. -/
def digitVal (c : Char) : Option Nat :=
  if 48 ≤ c.toNat ∧ c.toNat ≤ 57 then some (c.toNat - 48) else none

/-- Accumulating decimal parser over a character list. -/
def parseDigitsAux : Nat → List Char → Option Nat
  | acc, [] => some acc
  | acc, c :: rest =>
    match digitVal c with
    | none => none
    | some d => parseDigitsAux (acc * 10 + d) rest

/-- Parse a non-empty all-digit character list as a natural number. -/
def parseNatChars (l : List Char) : Option Nat :=
  if l = [] then none else parseDigitsAux 0 l

/-- Decimal text of an integer (minus sign for negatives). -/
def intToChars (i : Int) : List Char :=
  if i < 0 then '-' :: natToDigits i.natAbs else natToDigits i.natAbs

/-- Parse an optionally-signed decimal integer. -/
def parseIntChars (l : List Char) : Option Int :=
  if l.head? = some '-' then (parseNatChars l.tail).map (fun n => -(n : Int))
  else (parseNatChars l).map (fun n => (n : Int))

/-- Split a character list at the first occurrence of `sep`. -/
def splitAtChar (sep : Char) : List Char → Option (List Char × List Char)
  | [] => none
  | c :: rest =>
    if c = sep then some ([], rest)
    else (splitAtChar sep rest).map (fun p => (c :: p.1, p.2))

/-- Text form of a rational: `num` when the denominator is 1, else `num/den`.
This is the model of Python's value-faithful float formatting (`repr`). -/
def ratToChars (q : Rat) : List Char :=
  if q.den = 1 then intToChars q.num
  else intToChars q.num ++ '/' :: natToDigits q.den

/-- Parse the text form of a rational; the model of Python's `float()`. -/
def parseRatChars (l : List Char) : Option Rat :=
  match splitAtChar '/' l with
  | none => (parseIntChars l).map (fun i => (i : Rat))
  | some (a, b) =>
    match parseIntChars a, parseNatChars b with
    | some num, some den => if den = 0 then none else some (mkRat num den)
    | _, _ => none

/-! ## Whitespace trimming (model of Python `str.strip()` and the
whitespace tolerance of `int()` / `float()`) -/

/-- ASCII whitespace as stripped by Python. -/
def isWsChar (c : Char) : Bool :=
  c = ' ' ∨ c = '\t' ∨ c = '\n' ∨ c = '\r' ∨ c = '\x0b' ∨ c = '\x0c'

/-- Remove leading and trailing whitespace from a character list. -/
def trimChars (l : List Char) : List Char :=
  ((l.dropWhile isWsChar).reverse.dropWhile isWsChar).reverse

/-! ## String-level wrappers -/

/-- Model of Python `str.strip()`. -/
def pstrip (s : String) : String := ⟨trimChars s.data⟩

/-- Decimal text of an integer, as a string (model of `str(int)`). -/
def encodeInt (i : Int) : String := ⟨intToChars i⟩

/-- Text of a rational, as a string (model of value-faithful float printing). -/
def encodeRat (q : Rat) : String := ⟨ratToChars q⟩

/-- Model of Python `int(s)`: whitespace-tolerant signed decimal parse. -/
def decodeInt (s : String) : Option Int := parseIntChars (trimChars s.data)

/-- Model of Python `float(s)`: whitespace-tolerant numeric parse. -/
def decodeRat (s : String) : Option Rat := parseRatChars (trimChars s.data)

/-! ## Data model (`cell_rules.py`) -/

/-- Error taxonomy of the spec, carrying the Python exception message.
`invalidArgument`/`formatError`/`invalidState` are all `ValueError` in the
source; `notFound` is `FileNotFoundError`. -/
inductive PCError where
  | invalidArgument (msg : String)
  | notFound (msg : String)
  | formatError (msg : String)
  | invalidState (msg : String)
deriving Repr, DecidableEq

/-- One behavior-modulation rule (the dict built by `add_rule` /
`load_rules_from_csv`).  `saturation_value`, `half_max`, `hill_power` are
Python floats (modelled as `Rat`); `apply_to_dead` is a Python int. -/
structure Rule where
  cell_type : String
  signal : String
  direction : String
  behavior : String
  saturation_value : Rat
  half_max : Rat
  hill_power : Rat
  apply_to_dead : Int
deriving Repr, DecidableEq

/-- A registered ruleset record (the dict built by `add_ruleset` /
`load_from_xml`). -/
structure RuleSet where
  folder : String
  filename : String
  enabled : Bool
  protocol : String
  version : String
  format : String
deriving Repr, DecidableEq

/-- State of `CellRulesModule`: `rulesets` is an insertion-ordered dict
(association list keyed by name), `rules` an ordered list. -/
structure CellRulesModule where
  rulesets : List (String × RuleSet)
  rules : List Rule
deriving Repr, DecidableEq

/-- `CellRulesModule.__init__`: empty registry, empty rule list. -/
def CellRulesModule.init : CellRulesModule := ⟨[], []⟩

/-- `add_ruleset`: upsert a ruleset record under `name` with the fixed
protocol/version/format stamp. -/
def CellRulesModule.add_ruleset (m : CellRulesModule) (name : String)
    (folder : String := "./config") (filename : String := "rules.csv")
    (enabled : Bool := true) : CellRulesModule :=
  let rs : RuleSet := ⟨folder, filename, enabled, "CBHG", "3.0", "csv"⟩
  if (m.rulesets.map Prod.fst).contains name then
    ⟨m.rulesets.map (fun p => if p.1 = name then (name, rs) else p), m.rules⟩
  else
    ⟨m.rulesets ++ [(name, rs)], m.rules⟩

/-- `add_rule`: validates `direction` and `apply_to_dead`, then appends the
rule at the end of the ordered list. -/
def CellRulesModule.add_rule (m : CellRulesModule) (cell_type signal direction behavior : String)
    (saturation_value : Rat := 0) (half_max : Rat := mkRat 1 2) (hill_power : Rat := 4)
    (apply_to_dead : Int := 0) : Except PCError CellRulesModule :=
  if direction ≠ "increases" ∧ direction ≠ "decreases" then
    .error (.invalidArgument
      ("Invalid direction " ++ direction ++ ". Must be increases or decreases"))
  else if apply_to_dead ≠ 0 ∧ apply_to_dead ≠ 1 then
    .error (.invalidArgument
      ("Invalid apply_to_dead value " ++ encodeInt apply_to_dead ++ ". Must be 0 or 1"))
  else
    .ok ⟨m.rulesets, m.rules ++
      [⟨cell_type, signal, direction, behavior,
        saturation_value, half_max, hill_power, apply_to_dead⟩]⟩

/-! ## Tabular codec (`load_rules_from_csv` / `save_rules_to_csv`) -/

/-- A CSV row is blank when it has no cells or every cell strips to empty
(`if not row or all(c.strip() == '' for c in row)`). -/
def blankRow (row : List String) : Bool :=
  row.isEmpty || row.all (fun c => trimChars c.data = [])

/-- Parse one non-blank CSV row into a rule, mirroring the dict construction
in `load_rules_from_csv`: string fields are stripped, columns 5-7 go through
`float()`, column 8 through `int()`.  Rows shorter than 8 cells are a
`ValueError`; cells beyond the eighth are never read. -/
def parseRow (row : List String) : Except PCError Rule :=
  match row with
  | c0 :: c1 :: c2 :: c3 :: c4 :: c5 :: c6 :: c7 :: _ =>
    match decodeRat c4, decodeRat c5, decodeRat c6, decodeInt c7 with
    | some sv, some hm, some hp, some ad =>
      .ok ⟨pstrip c0, pstrip c1, pstrip c2, pstrip c3, sv, hm, hp, ad⟩
    | _, _, _, _ =>
      .error (.formatError "could not convert field to a number")
  | _ =>
    .error (.formatError
      ("Expected 8 columns but got " ++ encodeInt row.length))

/-- The reader loop of `load_rules_from_csv`: appends each parsed rule to
`self.rules` as it goes; on the first bad row it stops with an error, keeping
the rules appended so far (the Python method mutates `self` then raises). -/
def loadRows : CellRulesModule → List (List String) → CellRulesModule × Option PCError
  | m, [] => (m, none)
  | m, row :: rest =>
    if blankRow row then loadRows m rest
    else
      match parseRow row with
      | .error e => (m, some e)
      | .ok r => loadRows ⟨m.rulesets, m.rules ++ [r]⟩ rest

/-- `load_rules_from_csv`: `file = none` models a nonexistent path
(`FileNotFoundError`); otherwise the row loop runs on the file's rows. -/
def CellRulesModule.load_rules_from_csv (m : CellRulesModule) (filename : String)
    (file : Option (List (List String))) : CellRulesModule × Option PCError :=
  match file with
  | none => (m, some (.notFound ("Rules file " ++ filename ++ " not found")))
  | some rows => loadRows m rows

/-- The row written for one rule by `save_rules_to_csv` (the `csv.writer`
renders each value with `str`, modelled by the numeric encoders). -/
def ruleToRow (r : Rule) : List String :=
  [r.cell_type, r.signal, r.direction, r.behavior,
   encodeRat r.saturation_value, encodeRat r.half_max, encodeRat r.hill_power,
   encodeInt r.apply_to_dead]

/-- `save_rules_to_csv`: `ValueError` when the rule list is empty, else one
row per rule in order. -/
def CellRulesModule.save_rules_to_csv (m : CellRulesModule) :
    Except PCError (List (List String)) :=
  if m.rules = [] then .error (.invalidState "No rules to save")
  else .ok (m.rules.map ruleToRow)

/-- `get_rules` (returns a copy; copies are value-equal in the model). -/
def CellRulesModule.get_rules (m : CellRulesModule) : List Rule := m.rules

/-- `clear_rules`. -/
def CellRulesModule.clear_rules (m : CellRulesModule) : CellRulesModule :=
  ⟨m.rulesets, []⟩

/-! ## XML document tree

Model of the slice of `xml.etree.ElementTree` the modules use: an element has
a tag, an attribute dict, optional text, and an ordered child list.

The child-creating helper corresponds to `BaseModule._create_element`.
Modelled from the spec: `physicell_config/modules/base.py` is not under
`src/`; per spec section 2 the Element Builder is a "thin helper that appends
a named, optionally-typed, optionally-texted child node to a parent node",
so elements are built directly from tag, attributes, text and children, and
non-string text (floats) is rendered with its decimal string form. -/
inductive XmlNode where
  | mk (tag : String) (attrs : List (String × String)) (text : Option String)
      (children : List XmlNode)

/-- Element tag. -/
def XmlNode.tag : XmlNode → String
  | .mk t _ _ _ => t

/-- Attribute dict. -/
def XmlNode.attrs : XmlNode → List (String × String)
  | .mk _ a _ _ => a

/-- Element text (`None` or a string). -/
def XmlNode.text : XmlNode → Option String
  | .mk _ _ t _ => t

/-- Ordered child list. -/
def XmlNode.children : XmlNode → List XmlNode
  | .mk _ _ _ c => c

/-- `element.get(name, default)`. -/
def XmlNode.attr (x : XmlNode) (name dflt : String) : String :=
  match x.attrs.find? (fun p => p.1 = name) with
  | some p => p.2
  | none => dflt

/-- `element.find(tag)`: first direct child with the tag, if any. -/
def XmlNode.findChild (x : XmlNode) (t : String) : Option XmlNode :=
  x.children.find? (fun c => c.tag = t)

/-- `element.findall(tag)`: all direct children with the tag, in order. -/
def XmlNode.findAll (x : XmlNode) (t : String) : List XmlNode :=
  x.children.filter (fun c => c.tag = t)

/-- Append a freshly built child under a parent (the effect of
`_create_element(parent, ...)` on the parent). -/
def XmlNode.appendChild (x : XmlNode) (c : XmlNode) : XmlNode :=
  .mk x.tag x.attrs x.text (x.children ++ [c])

/-- `str(b).lower()` for a Python bool. -/
def boolText (b : Bool) : String := if b then "true" else "false"

/-- ASCII lowercasing of one character (model of `str.lower()` on the
ASCII-only attribute values involved). -/
def asciiLower (c : Char) : Char :=
  if 65 ≤ c.toNat ∧ c.toNat ≤ 90 then Char.ofNat (c.toNat + 32) else c

/-- Model of `str.lower()`. -/
def strLower (s : String) : String := ⟨s.data.map asciiLower⟩

/-! ## XML codec for cell rules (`add_to_xml` / `load_from_xml`) -/

/-- The `ruleset` element emitted for one registered ruleset.  The Python
code reads protocol/version/format with `dict.get(..., default)`, but every
record stored by `add_ruleset`/`load_from_xml` carries all three keys, so the
defaults are dead and the record fields are used directly. -/
def rulesetToXml (rs : RuleSet) : XmlNode :=
  .mk "ruleset"
    [("protocol", rs.protocol), ("version", rs.version), ("format", rs.format),
     ("enabled", boolText rs.enabled)]
    none
    [.mk "folder" [] (some rs.folder) [],
     .mk "filename" [] (some rs.filename) []]

/-- The default disabled placeholder `ruleset` emitted for an empty registry. -/
def defaultRulesetXml : XmlNode :=
  .mk "ruleset"
    [("protocol", "CBHG"), ("version", "3.0"), ("format", "csv"),
     ("enabled", "false")]
    none
    [.mk "folder" [] (some "./config") [],
     .mk "filename" [] (some "cell_rules.csv") []]

/-- The `cell_rules` element built by `CellRulesModule.add_to_xml`:
a `rulesets` element (placeholder child when the registry is empty, else one
`ruleset` child per record in insertion order) followed by an empty
`settings` element. -/
def cellRulesXml (m : CellRulesModule) : XmlNode :=
  .mk "cell_rules" [] none
    [.mk "rulesets" [] none
      (if m.rulesets.isEmpty then [defaultRulesetXml]
       else m.rulesets.map (fun p => rulesetToXml p.2)),
     .mk "settings" [] none []]

/-- `CellRulesModule.add_to_xml(parent)`: always appends the `cell_rules`
section to the parent. -/
def CellRulesModule.add_to_xml (m : CellRulesModule) (parent : XmlNode) : XmlNode :=
  parent.appendChild (cellRulesXml m)

/-- `os.path.splitext(filename)[0]` (no directory separators involved here):
strip from the last dot, unless every character before that dot is itself a
dot (so ".csv" and "..." keep their text). -/
def splitextStem (s : String) : String :=
  let rev := s.data.reverse
  let afterRev := rev.takeWhile (fun c => c ≠ '.')
  if afterRev.length = rev.length then s
  else
    let stem := (rev.drop (afterRev.length + 1)).reverse
    if stem.all (fun c => c = '.') then s else ⟨stem⟩

/-- The `while ruleset_name in self.rulesets:` suffix search, fuelled; the
fuel (one more than the registry size) always suffices because each candidate
name is distinct. -/
def freshNameAux (base : String) (taken : List String) : Nat → Nat → String
  | counter, 0 => base ++ "_" ++ ⟨natToDigits counter⟩
  | counter, fuel + 1 =>
    let cand := base ++ "_" ++ ⟨natToDigits counter⟩
    if taken.contains cand then freshNameAux base taken (counter + 1) fuel else cand

/-- Name disambiguation of `load_from_xml`: the stem itself if unused, else
`stem_1`, `stem_2`, ... -/
def freshName (base : String) (taken : List String) : String :=
  if taken.contains base then freshNameAux base taken 1 (taken.length + 1) else base

/-- Processing of one `ruleset` element during `load_from_xml`: skipped
unless both `folder` and `filename` children are present; attributes default
to protocol="CBHG", version="3.0", format="csv", enabled="false"; child text
is stripped when truthy (non-empty), else replaced by the default path. -/
def processRulesetElem (acc : CellRulesModule) (el : XmlNode) : CellRulesModule :=
  match el.findChild "folder", el.findChild "filename" with
  | some folderElem, some filenameElem =>
    let folder := match folderElem.text with
      | some t => if t ≠ "" then pstrip t else "./config"
      | none => "./config"
    let filename := match filenameElem.text with
      | some t => if t ≠ "" then pstrip t else "cell_rules.csv"
      | none => "cell_rules.csv"
    let enabled := strLower (el.attr "enabled" "false") = "true"
    let name := freshName (splitextStem filename) (acc.rulesets.map Prod.fst)
    ⟨acc.rulesets ++
      [(name, ⟨folder, filename, enabled,
        el.attr "protocol" "CBHG", el.attr "version" "3.0",
        el.attr "format" "csv"⟩)],
     acc.rules⟩
  | _, _ => acc

/-- `CellRulesModule.load_from_xml`: no-op on an absent element; otherwise
clears the registry and registers each `ruleset` child of `rulesets`. -/
def CellRulesModule.load_from_xml (m : CellRulesModule) (x : Option XmlNode) :
    CellRulesModule :=
  match x with
  | none => m
  | some el =>
    let m1 : CellRulesModule := ⟨[], m.rules⟩
    match el.findChild "rulesets" with
    | none => m1
    | some rs => (rs.findAll "ruleset").foldl processRulesetElem m1

/-! ## Boolean-Network module (`physiboss.py`) -/

/-- The settings bag written by `enable_physiboss`. -/
structure PhysiBossSettings where
  model_file : String
  initial_values : List (String × Bool)
  mutations : List (String × List (String × Bool))
  parameters : List (String × Rat)
  time_step : Rat
  scaling : Rat
  start_time : Rat
deriving Repr, DecidableEq

/-- State of `PhysiBoSSModule`: `physiboss_settings` starts as the empty dict
(`none`) and is populated only by `enable_physiboss`. -/
structure PhysiBoSSModule where
  enabled : Bool
  physiboss_settings : Option PhysiBossSettings
deriving Repr, DecidableEq

/-- `PhysiBoSSModule.__init__`. -/
def PhysiBoSSModule.init : PhysiBoSSModule := ⟨false, none⟩

/-- `enable_physiboss`: sets `enabled` and overwrites the whole settings bag;
absent optional maps become empty, and the fixed defaults are
time_step=12.0, scaling=10.0, start_time=0.0. -/
def PhysiBoSSModule.enable_physiboss (_ : PhysiBoSSModule)
    (model_file : String := "boolean_model.bnd")
    (initial_values : List (String × Bool) := [])
    (mutations : List (String × List (String × Bool)) := [])
    (parameters : List (String × Rat) := []) : PhysiBoSSModule :=
  ⟨true, some ⟨model_file, initial_values, mutations, parameters, 12, 10, 0⟩⟩

/-- Modelled from the spec: `BaseModule._validate_positive_number` lives in
`base.py`, which is not under `src/`; per spec section 4.3 the setters "fail
with InvalidArgument if the value is not a positive number". -/
def validatePositiveNumber (v : Rat) (name : String) : Except PCError Unit :=
  if 0 < v then .ok () else
    .error (.invalidArgument (name ++ " must be a positive number"))

/-- `set_time_step`: InvalidState before enable, then positivity check. -/
def PhysiBoSSModule.set_time_step (m : PhysiBoSSModule) (t : Rat) :
    Except PCError PhysiBoSSModule :=
  if !m.enabled then .error (.invalidState "PhysiBoSS must be enabled first")
  else do
    let _ ← validatePositiveNumber t "time_step"
    .ok ⟨m.enabled, m.physiboss_settings.map (fun s =>
      {s with time_step := t})⟩

/-- `set_scaling`: InvalidState before enable, then positivity check. -/
def PhysiBoSSModule.set_scaling (m : PhysiBoSSModule) (v : Rat) :
    Except PCError PhysiBoSSModule :=
  if !m.enabled then .error (.invalidState "PhysiBoSS must be enabled first")
  else do
    let _ ← validatePositiveNumber v "scaling"
    .ok ⟨m.enabled, m.physiboss_settings.map (fun s =>
      {s with scaling := v})⟩

/-- Upsert into an association list, preserving insertion order (the model of
`d[k] = v` on a Python dict). -/
def upsert {α : Type} (l : List (String × α)) (k : String) (v : α) :
    List (String × α) :=
  if (l.map Prod.fst).contains k then
    l.map (fun p => if p.1 = k then (k, v) else p)
  else l ++ [(k, v)]

/-- `add_initial_value`: InvalidState before enable, else upsert. -/
def PhysiBoSSModule.add_initial_value (m : PhysiBoSSModule) (node : String)
    (value : Bool) : Except PCError PhysiBoSSModule :=
  if !m.enabled then .error (.invalidState "PhysiBoSS must be enabled first")
  else .ok ⟨m.enabled, m.physiboss_settings.map (fun s =>
    {s with initial_values := upsert s.initial_values node value})⟩

/-- `add_mutation`: InvalidState before enable, else upsert into the nested
per-cell-line map (creating the inner dict when absent). -/
def PhysiBoSSModule.add_mutation (m : PhysiBoSSModule) (cell_line node : String)
    (value : Bool) : Except PCError PhysiBoSSModule :=
  if !m.enabled then .error (.invalidState "PhysiBoSS must be enabled first")
  else .ok ⟨m.enabled, m.physiboss_settings.map (fun s =>
    let muts := if (s.mutations.map Prod.fst).contains cell_line then s.mutations
      else s.mutations ++ [(cell_line, [])]
    {s with mutations :=
      muts.map (fun p => if p.1 = cell_line then (p.1, upsert p.2 node value) else p)})⟩

/-- `add_parameter`: InvalidState before enable, else upsert. -/
def PhysiBoSSModule.add_parameter (m : PhysiBoSSModule) (name : String)
    (value : Rat) : Except PCError PhysiBoSSModule :=
  if !m.enabled then .error (.invalidState "PhysiBoSS must be enabled first")
  else .ok ⟨m.enabled, m.physiboss_settings.map (fun s =>
    {s with parameters := upsert s.parameters name value})⟩

/-- `is_enabled`. -/
def PhysiBoSSModule.is_enabled (m : PhysiBoSSModule) : Bool := m.enabled

/-- `get_settings`: empty result when disabled, the settings bag otherwise. -/
def PhysiBoSSModule.get_settings (m : PhysiBoSSModule) : Option PhysiBossSettings :=
  if m.enabled then m.physiboss_settings else none

/-- The `physiboss_settings` block of the serialized fragment. -/
def pbSettingsXml (s : PhysiBossSettings) : XmlNode :=
  .mk "physiboss_settings" [] none
    [.mk "physiboss_bnd_file" [] (some s.model_file) [],
     .mk "physiboss_time_step" [("units", "min")] (some (encodeRat s.time_step)) [],
     .mk "physiboss_scaling" [] (some (encodeRat s.scaling)) [],
     .mk "physiboss_start_time" [("units", "min")] (some (encodeRat s.start_time)) []]

/-- One `physiboss_initial_value` child: node attribute, lowercase boolean
text. -/
def pbIVEntryXml (p : String × Bool) : XmlNode :=
  .mk "physiboss_initial_value" [("node", p.1)] (some (boolText p.2)) []

/-- One `physiboss_mutation_value` child: node attribute, lowercase boolean
text. -/
def pbMutValueXml (q : String × Bool) : XmlNode :=
  .mk "physiboss_mutation_value" [("node", q.1)] (some (boolText q.2)) []

/-- One `physiboss_mutation` child: cell_line attribute plus one nested child
per mutated node. -/
def pbMutXml (p : String × List (String × Bool)) : XmlNode :=
  .mk "physiboss_mutation" [("cell_line", p.1)] none (p.2.map pbMutValueXml)

/-- One `physiboss_parameter` child: name attribute, numeric text. -/
def pbParamXml (p : String × Rat) : XmlNode :=
  .mk "physiboss_parameter" [("name", p.1)] (some (encodeRat p.2)) []

/-- The optional `physiboss_initial_values` / `physiboss_mutations` /
`physiboss_parameters` blocks: each omitted entirely when its map is empty. -/
def pbOptionalBlocks (s : PhysiBossSettings) : List XmlNode :=
  (if s.initial_values.isEmpty then [] else
    [.mk "physiboss_initial_values" [] none (s.initial_values.map pbIVEntryXml)]) ++
  (if s.mutations.isEmpty then [] else
    [.mk "physiboss_mutations" [] none (s.mutations.map pbMutXml)]) ++
  (if s.parameters.isEmpty then [] else
    [.mk "physiboss_parameters" [] none (s.parameters.map pbParamXml)])

/-- The `physiboss` element emitted for an enabled module. -/
def physibossXml (s : PhysiBossSettings) : XmlNode :=
  .mk "physiboss" [("enabled", "true")] none (pbSettingsXml s :: pbOptionalBlocks s)

/-- `PhysiBoSSModule.add_to_xml(parent)`: appends nothing when disabled,
else appends the `physiboss` element.  (An enabled module always carries a
settings bag through the public API; the impossible enabled-but-empty state
is mapped to a no-op.) -/
def PhysiBoSSModule.add_to_xml (m : PhysiBoSSModule) (parent : XmlNode) : XmlNode :=
  if !m.enabled then parent
  else
    match m.physiboss_settings with
    | none => parent
    | some s => parent.appendChild (physibossXml s)

/-- Text of the first child with the given tag, if any. -/
def pbChildText (el : XmlNode) (t : String) : Option String :=
  (el.findChild t).bind XmlNode.text

/-- Modelled from the spec: read one boolean entry (node attribute plus
lowercase boolean text). -/
def pbReadBoolEntry (c : XmlNode) : String × Bool :=
  (c.attr "node" "", c.text.getD "" = "true")

/-- Modelled from the spec: read one per-cell-line mutation entry. -/
def pbReadMutEntry (c : XmlNode) : String × List (String × Bool) :=
  (c.attr "cell_line" "", (c.findAll "physiboss_mutation_value").map pbReadBoolEntry)

/-- Modelled from the spec: read one parameter entry (name attribute plus
numeric text). -/
def pbReadParamEntry (c : XmlNode) : String × Rat :=
  (c.attr "name" "", (c.text.bind decodeRat).getD 0)

/-- Modelled from the spec: entries of the `physiboss_initial_values`
block(s) — node attribute plus lowercase boolean text. -/
def pbParseInitialValues (el : XmlNode) : List (String × Bool) :=
  ((el.findAll "physiboss_initial_values").map (fun b =>
    (b.findAll "physiboss_initial_value").map pbReadBoolEntry)).flatten

/-- Modelled from the spec: entries of the `physiboss_mutations` block(s) —
one entry per cell line, nested per-node boolean children. -/
def pbParseMutations (el : XmlNode) : List (String × List (String × Bool)) :=
  ((el.findAll "physiboss_mutations").map (fun b =>
    (b.findAll "physiboss_mutation").map pbReadMutEntry)).flatten

/-- Modelled from the spec: entries of the `physiboss_parameters` block(s) —
name attribute plus numeric text. -/
def pbParseParameters (el : XmlNode) : List (String × Rat) :=
  ((el.findAll "physiboss_parameters").map (fun b =>
    (b.findAll "physiboss_parameter").map pbReadParamEntry)).flatten

/-- Modelled from the spec: the repository ships no physiboss XML
deserializer under `src/` (the spec's Boolean-Network module
"serializes/parses an analogous XML fragment", and deserializers must
tolerate absent elements by no-op and absent pieces by defaults).  Parses
the `physiboss` fragment of spec section 6 into a fresh module: the
`enabled` attribute, the `physiboss_settings` block (bnd file, time step,
scaling, start time, each defaulting when missing or unreadable), then the
three optional map blocks. -/
def PhysiBoSSModule.load_from_xml (x : Option XmlNode) : PhysiBoSSModule :=
  match x with
  | none => PhysiBoSSModule.init
  | some el =>
    if strLower (el.attr "enabled" "false") ≠ "true" then PhysiBoSSModule.init
    else
      let settingsElem := el.findChild "physiboss_settings"
      let model_file :=
        (settingsElem.bind (fun s => pbChildText s "physiboss_bnd_file")).getD
          "boolean_model.bnd"
      let time_step :=
        ((settingsElem.bind (fun s => pbChildText s "physiboss_time_step")).bind
          decodeRat).getD 12
      let scaling :=
        ((settingsElem.bind (fun s => pbChildText s "physiboss_scaling")).bind
          decodeRat).getD 10
      let start_time :=
        ((settingsElem.bind (fun s => pbChildText s "physiboss_start_time")).bind
          decodeRat).getD 0
      ⟨true, some ⟨model_file, pbParseInitialValues el, pbParseMutations el,
        pbParseParameters el, time_step, scaling, start_time⟩⟩

/-- Decidable equality for `Except` results (not provided by the library). -/
instance exceptDecEq {e a : Type} [DecidableEq e] [DecidableEq a] :
    DecidableEq (Except e a) := fun x y =>
  match x, y with
  | .error e₁, .error e₂ =>
    if h : e₁ = e₂ then .isTrue (h ▸ rfl)
    else .isFalse (fun hc => h (by cases hc; rfl))
  | .ok x₁, .ok x₂ =>
    if h : x₁ = x₂ then .isTrue (h ▸ rfl)
    else .isFalse (fun hc => h (by cases hc; rfl))
  | .error _, .ok _ => .isFalse (fun hc => Except.noConfusion hc)
  | .ok _, .error _ => .isFalse (fun hc => Except.noConfusion hc)


/-! ## Derived notions used by the statements -/

/-- A rule whose four string fields are unchanged by stripping (every rule
created by `add_rule` from already-trimmed arguments is such). -/
def trimmedRule (r : Rule) : Prop :=
  pstrip r.cell_type = r.cell_type ∧ pstrip r.signal = r.signal ∧
  pstrip r.direction = r.direction ∧ pstrip r.behavior = r.behavior

instance (r : Rule) : Decidable (trimmedRule r) := by
  unfold trimmedRule; infer_instance

/-- Whether `parseRow` rejects a row. -/
def rowFails (row : List String) : Bool :=
  match parseRow row with
  | .error _ => true
  | .ok _ => false

/-- The rules parsed from the rows strictly before the first failing row
(blank rows skipped); on a fully well-formed file these are all its rules. -/
def goodPrefixRules : List (List String) → List Rule
  | [] => []
  | row :: rest =>
    if blankRow row then goodPrefixRules rest
    else
      match parseRow row with
      | .error _ => []
      | .ok r => r :: goodPrefixRules rest


/-! ## Codec and library lemmas -/

theorem digitVal_digitChar {n : Nat} (h : n < 10) : digitVal (digitChar n) = some n := by
  interval_cases n <;> decide

theorem parseDigitsAux_append (l₁ l₂ : List Char) (acc : Nat) :
    parseDigitsAux acc (l₁ ++ l₂) =
      (parseDigitsAux acc l₁).bind (fun a => parseDigitsAux a l₂) := by
  induction l₁ generalizing acc with
  | nil => simp [parseDigitsAux]
  | cons c rest ih =>
    simp only [List.cons_append, parseDigitsAux]
    cases digitVal c with
    | none => simp
    | some d => simp [ih]

theorem natToDigitsFuel_ne_nil (fuel n : Nat) (h : n < fuel) :
    natToDigitsFuel fuel n ≠ [] := by
  cases fuel with
  | zero => omega
  | succ f =>
    simp only [natToDigitsFuel]
    split
    · simp
    · simp

theorem mem_natToDigitsFuel (fuel n : Nat) {c : Char}
    (hc : c ∈ natToDigitsFuel fuel n) : ∃ m < 10, c = digitChar m := by
  induction fuel generalizing n with
  | zero => simp [natToDigitsFuel] at hc
  | succ f ih =>
    simp only [natToDigitsFuel] at hc
    split at hc
    · next h =>
      simp at hc
      exact ⟨n, h, hc⟩
    · next h =>
      rcases List.mem_append.mp hc with h1 | h2
      · exact ih _ h1
      · simp at h2
        exact ⟨n % 10, Nat.mod_lt _ (by omega), h2⟩

theorem parseDigitsAux_natToDigitsFuel (fuel : Nat) :
    ∀ n, n < fuel → parseDigitsAux 0 (natToDigitsFuel fuel n) = some n := by
  induction fuel with
  | zero => intro n h; omega
  | succ f ih =>
    intro n h
    simp only [natToDigitsFuel]
    split
    · next h10 =>
      simp [parseDigitsAux, digitVal_digitChar h10]
    · next h10 =>
      push_neg at h10
      have hdiv : n / 10 < n := Nat.div_lt_self (by omega) (by omega)
      rw [parseDigitsAux_append]
      rw [ih (n / 10) (by omega)]
      simp [parseDigitsAux, digitVal_digitChar (Nat.mod_lt n (by omega))]
      omega

theorem natToDigits_ne_nil (n : Nat) : natToDigits n ≠ [] :=
  natToDigitsFuel_ne_nil (n + 1) n (Nat.lt_succ_self n)

theorem parseNatChars_natToDigits (n : Nat) : parseNatChars (natToDigits n) = some n := by
  simp only [parseNatChars, if_neg (natToDigits_ne_nil n)]
  exact parseDigitsAux_natToDigitsFuel (n + 1) n (Nat.lt_succ_self n)

theorem mem_natToDigits {n : Nat} {c : Char} (hc : c ∈ natToDigits n) :
    ∃ m < 10, c = digitChar m :=
  mem_natToDigitsFuel (n + 1) n hc

theorem natToDigits_head?_ne_minus (n : Nat) : (natToDigits n).head? ≠ some '-' := by
  intro h
  cases hd : natToDigits n with
  | nil => rw [hd] at h; simp at h
  | cons a l =>
    rw [hd] at h
    simp at h
    have hmem : a ∈ natToDigits n := by
      rw [hd]; exact List.mem_cons_self _ _
    obtain ⟨m, hm, hc⟩ := mem_natToDigits hmem
    rw [h] at hc
    interval_cases m <;> exact absurd hc (by decide)

theorem parseIntChars_intToChars (i : Int) : parseIntChars (intToChars i) = some i := by
  by_cases hneg : i < 0
  · have h1 : intToChars i = '-' :: natToDigits i.natAbs := by
      simp only [intToChars, if_pos hneg]
    simp only [parseIntChars, h1, List.head?_cons, List.tail_cons, if_pos]
    rw [parseNatChars_natToDigits]
    show some (-(i.natAbs : Int)) = some i
    congr 1
    omega
  · have h1 : intToChars i = natToDigits i.natAbs := by
      simp only [intToChars, if_neg hneg]
    simp only [parseIntChars, h1, if_neg (natToDigits_head?_ne_minus _)]
    rw [parseNatChars_natToDigits]
    show some ((i.natAbs : Int)) = some i
    congr 1
    omega

theorem splitAtChar_of_not_mem {sep : Char} {l : List Char} (h : sep ∉ l) :
    splitAtChar sep l = none := by
  induction l with
  | nil => rfl
  | cons c rest ih =>
    simp only [splitAtChar]
    rw [if_neg, ih]
    · rfl
    · exact fun hm => h (List.mem_cons.mpr (Or.inr hm))
    · intro hc
      exact h (hc ▸ List.mem_cons_self _ _)

theorem splitAtChar_append {sep : Char} {l₁ : List Char} (l₂ : List Char)
    (h : sep ∉ l₁) : splitAtChar sep (l₁ ++ sep :: l₂) = some (l₁, l₂) := by
  induction l₁ with
  | nil => simp [splitAtChar]
  | cons c rest ih =>
    simp only [List.cons_append, splitAtChar]
    rw [if_neg]
    · simp only [List.append_eq]
      rw [ih (fun hm => h (List.mem_cons.mpr (Or.inr hm)))]
      rfl
    · intro hc
      exact h (hc ▸ List.mem_cons_self _ _)

theorem not_mem_intToChars_slash (i : Int) : '/' ∉ intToChars i := by
  intro hmem
  simp only [intToChars] at hmem
  have hdig : '/' ∈ natToDigits i.natAbs := by
    split at hmem
    · rcases List.mem_cons.mp hmem with h | h
      · exact absurd h (by decide)
      · exact h
    · exact hmem
  obtain ⟨m, hm, hc⟩ := mem_natToDigits hdig
  interval_cases m <;> exact absurd hc (by decide)

theorem parseRatChars_ratToChars (q : Rat) : parseRatChars (ratToChars q) = some q := by
  by_cases hden : q.den = 1
  · have h1 : ratToChars q = intToChars q.num := by
      simp only [ratToChars, if_pos hden]
    simp only [parseRatChars, h1,
      splitAtChar_of_not_mem (not_mem_intToChars_slash q.num),
      parseIntChars_intToChars]
    show some ((q.num : Rat)) = some q
    congr 1
    rw [← Rat.num_div_den q, hden]
    simp
  · have h1 : ratToChars q = intToChars q.num ++ '/' :: natToDigits q.den := by
      simp only [ratToChars, if_neg hden]
    simp only [parseRatChars, h1,
      splitAtChar_append _ (not_mem_intToChars_slash q.num),
      parseIntChars_intToChars, parseNatChars_natToDigits]
    rw [if_neg q.den_nz]
    rw [Rat.mkRat_self q]

theorem dropWhile_eq_self_of_not_ws {l : List Char}
    (h : ∀ c ∈ l, isWsChar c = false) : l.dropWhile isWsChar = l := by
  cases l with
  | nil => rfl
  | cons c rest =>
    rw [List.dropWhile_cons_of_neg]
    simp [h c (List.mem_cons_self _ _)]

theorem trimChars_eq_self_of_not_ws {l : List Char}
    (h : ∀ c ∈ l, isWsChar c = false) : trimChars l = l := by
  unfold trimChars
  rw [dropWhile_eq_self_of_not_ws h]
  rw [dropWhile_eq_self_of_not_ws (fun c hc => h c (List.mem_reverse.mp hc))]
  exact List.reverse_reverse l

theorem not_ws_of_mem_natToDigits {n : Nat} {c : Char} (hc : c ∈ natToDigits n) :
    isWsChar c = false := by
  obtain ⟨m, hm, rfl⟩ := mem_natToDigits hc
  interval_cases m <;> decide

theorem not_ws_of_mem_intToChars {i : Int} {c : Char} (hc : c ∈ intToChars i) :
    isWsChar c = false := by
  simp only [intToChars] at hc
  split at hc
  · rcases List.mem_cons.mp hc with h | h
    · subst h; decide
    · exact not_ws_of_mem_natToDigits h
  · exact not_ws_of_mem_natToDigits hc

theorem not_ws_of_mem_ratToChars {q : Rat} {c : Char} (hc : c ∈ ratToChars q) :
    isWsChar c = false := by
  simp only [ratToChars] at hc
  split at hc
  · exact not_ws_of_mem_intToChars hc
  · rcases List.mem_append.mp hc with h | h
    · exact not_ws_of_mem_intToChars h
    · rcases List.mem_cons.mp h with h1 | h1
      · subst h1; decide
      · exact not_ws_of_mem_natToDigits h1

theorem decodeInt_encodeInt (i : Int) : decodeInt (encodeInt i) = some i := by
  simp only [decodeInt, encodeInt]
  rw [trimChars_eq_self_of_not_ws (fun c hc => not_ws_of_mem_intToChars hc)]
  exact parseIntChars_intToChars i

theorem decodeRat_encodeRat (q : Rat) : decodeRat (encodeRat q) = some q := by
  simp only [decodeRat, encodeRat]
  rw [trimChars_eq_self_of_not_ws (fun c hc => not_ws_of_mem_ratToChars hc)]
  exact parseRatChars_ratToChars q

/-! ## Tabular codec lemmas -/

theorem intToChars_ne_nil (i : Int) : intToChars i ≠ [] := by
  unfold intToChars
  split
  · simp
  · exact natToDigits_ne_nil _

theorem ratToChars_ne_nil (q : Rat) : ratToChars q ≠ [] := by
  unfold ratToChars
  split
  · exact intToChars_ne_nil _
  · simp [intToChars_ne_nil]

theorem trimChars_encodeRat (q : Rat) : trimChars (encodeRat q).data = ratToChars q := by
  show trimChars (ratToChars q) = ratToChars q
  exact trimChars_eq_self_of_not_ws (fun c hc => not_ws_of_mem_ratToChars hc)

theorem blankRow_ruleToRow (r : Rule) : blankRow (ruleToRow r) = false := by
  simp only [blankRow, ruleToRow, List.isEmpty_cons, Bool.false_or, List.all_cons]
  have h5 : decide (trimChars (encodeRat r.saturation_value).data = []) = false := by
    simp [trimChars_encodeRat, ratToChars_ne_nil]
  simp [h5]

theorem parseRow_ruleToRow {r : Rule} (h : trimmedRule r) :
    parseRow (ruleToRow r) = .ok r := by
  obtain ⟨hc, hs, hd, hb⟩ := h
  simp only [parseRow, ruleToRow, decodeRat_encodeRat, decodeInt_encodeInt]
  rw [hc, hs, hd, hb]

theorem parseRow_error_format {row : List String} {e : PCError}
    (h : parseRow row = .error e) : ∃ s, e = .formatError s := by
  unfold parseRow at h
  split at h
  · split at h
    · exact absurd h (by simp)
    · simp at h
      exact ⟨_, h.symm⟩
  · simp at h
    exact ⟨_, h.symm⟩

theorem parseRow_ok_shape {row : List String} {r : Rule} (h : parseRow row = .ok r) :
    ∃ c0 c1 c2 c3 c4 c5 c6 c7 tail,
      row = c0 :: c1 :: c2 :: c3 :: c4 :: c5 :: c6 :: c7 :: tail ∧
      r.cell_type = pstrip c0 ∧ r.signal = pstrip c1 ∧
      r.direction = pstrip c2 ∧ r.behavior = pstrip c3 := by
  unfold parseRow at h
  split at h
  · next c0 c1 c2 c3 c4 c5 c6 c7 tail =>
    split at h
    · simp at h
      exact ⟨c0, c1, c2, c3, c4, c5, c6, c7, tail, rfl, by rw [← h], by rw [← h],
        by rw [← h], by rw [← h]⟩
    · exact absurd h (by simp)
  · exact absurd h (by simp)

theorem parseRow_short {row : List String} (h : row.length < 8) :
    parseRow row = .error (.formatError
      ("Expected 8 columns but got " ++ encodeInt row.length)) := by
  unfold parseRow
  split
  · next c0 c1 c2 c3 c4 c5 c6 c7 tail =>
    simp at h
    omega
  · rfl

theorem rowFails_of_short {row : List String} (h : row.length < 8) :
    rowFails row = true := by
  simp [rowFails, parseRow_short h]

theorem loadRows_malformed :
    ∀ (rows : List (List String)) (m : CellRulesModule),
    (∃ row ∈ rows, blankRow row = false ∧ rowFails row = true) →
    ∃ msg, loadRows m rows =
      (⟨m.rulesets, m.rules ++ goodPrefixRules rows⟩, some (.formatError msg)) := by
  intro rows
  induction rows with
  | nil => intro m h; simp at h
  | cons row rest ih =>
    intro m h
    by_cases hb : blankRow row = true
    · have h' : ∃ r ∈ rest, blankRow r = false ∧ rowFails r = true := by
        rcases h with ⟨r, hr, hnb, hf⟩
        rcases List.mem_cons.mp hr with rfl | hmem
        · rw [hb] at hnb; exact absurd hnb (by simp)
        · exact ⟨r, hmem, hnb, hf⟩
      obtain ⟨msg, hm⟩ := ih m h'
      refine ⟨msg, ?_⟩
      simp only [loadRows, if_pos hb, goodPrefixRules, hm]
    · cases hp : parseRow row with
      | error e =>
        obtain ⟨s, rfl⟩ := parseRow_error_format hp
        refine ⟨s, ?_⟩
        simp only [loadRows, if_neg hb, hp, goodPrefixRules]
        cases m
        simp
      | ok r =>
        have h' : ∃ rw ∈ rest, blankRow rw = false ∧ rowFails rw = true := by
          rcases h with ⟨r', hr', hnb, hf⟩
          rcases List.mem_cons.mp hr' with rfl | hmem
          · rw [rowFails, hp] at hf; exact absurd hf (by simp)
          · exact ⟨r', hmem, hnb, hf⟩
        obtain ⟨msg, hm⟩ := ih ⟨m.rulesets, m.rules ++ [r]⟩ h'
        refine ⟨msg, ?_⟩
        simp only [loadRows, if_neg hb, hp, goodPrefixRules]
        rw [hm]
        simp

theorem loadRows_success :
    ∀ (rows : List (List String)) (m res : CellRulesModule),
    loadRows m rows = (res, none) →
    res = ⟨m.rulesets, m.rules ++ goodPrefixRules rows⟩ := by
  intro rows
  induction rows with
  | nil =>
    intro m res h
    simp only [loadRows, Prod.mk.injEq] at h
    rw [← h.1]
    cases m
    simp [goodPrefixRules]
  | cons row rest ih =>
    intro m res h
    by_cases hb : blankRow row = true
    · simp only [loadRows, if_pos hb] at h
      simp only [goodPrefixRules, if_pos hb]
      exact ih m res h
    · simp only [loadRows, if_neg hb] at h
      cases hp : parseRow row with
      | error e => rw [hp] at h; simp at h
      | ok r =>
        rw [hp] at h
        have := ih _ res h
        simp only [goodPrefixRules]
        rw [if_neg hb, hp]
        rw [this]
        simp

theorem loadRows_ruleToRow :
    ∀ (rules : List Rule) (m : CellRulesModule),
    (∀ r ∈ rules, trimmedRule r) →
    loadRows m (rules.map ruleToRow) = (⟨m.rulesets, m.rules ++ rules⟩, none) := by
  intro rules
  induction rules with
  | nil =>
    intro m _
    cases m
    simp [loadRows]
  | cons r rest ih =>
    intro m h
    simp only [List.map_cons, loadRows, if_neg (by simp [blankRow_ruleToRow r] : ¬ blankRow (ruleToRow r) = true)]
    rw [parseRow_ruleToRow (h r (List.mem_cons_self _ _))]
    show loadRows ⟨m.rulesets, m.rules ++ [r]⟩ (List.map ruleToRow rest) =
      (⟨m.rulesets, m.rules ++ r :: rest⟩, none)
    rw [ih ⟨m.rulesets, m.rules ++ [r]⟩ (fun r' hr' => h r' (List.mem_cons.mpr (Or.inr hr')))]
    simp

/-! ## Claims on the tabular codec -/

/-- C1 counterexample: the table round-trip is not the identity on every
non-empty rule list: a rule whose `cell_type` carries surrounding whitespace
is exported verbatim but comes back stripped by the import. -/
theorem c1_roundtrip_counterexample :
    (⟨[], [⟨" x ", "oxygen", "increases", "cycle entry", 0, mkRat 1 2, 4, 0⟩]⟩ :
        CellRulesModule).save_rules_to_csv =
      .ok [[" x ", "oxygen", "increases", "cycle entry", "0", "1/2", "4", "0"]] ∧
    (CellRulesModule.init.load_rules_from_csv "rules.csv"
        (some [[" x ", "oxygen", "increases", "cycle entry", "0", "1/2", "4", "0"]])).1.rules ≠
      [⟨" x ", "oxygen", "increases", "cycle entry", 0, mkRat 1 2, 4, 0⟩] := by
  decide

/-- C1 (amended): for every non-empty rule list whose four string fields are
unchanged by whitespace stripping, exporting to the tabular format and
importing the table into a fresh store reproduces the rule list
field-by-field, in order, with numeric fields recovered by value. -/
theorem c1_roundtrip :
    ∀ (m : CellRulesModule), m.rules ≠ [] → (∀ r ∈ m.rules, trimmedRule r) →
    ∃ rows, m.save_rules_to_csv = .ok rows ∧
      CellRulesModule.init.load_rules_from_csv "rules.csv" (some rows) =
        (⟨[], m.rules⟩, none) := by
  intro m hne htrim
  refine ⟨m.rules.map ruleToRow, ?_, ?_⟩
  · simp [CellRulesModule.save_rules_to_csv, hne]
  · show loadRows CellRulesModule.init (m.rules.map ruleToRow) = (⟨[], m.rules⟩, none)
    rw [loadRows_ruleToRow m.rules CellRulesModule.init htrim]
    rfl

/-- C1 witness: the round-trip theorem applied to a concrete one-rule store. -/
theorem c1_roundtrip_witness :
    ∃ rows, (⟨[], [⟨"cell", "oxygen", "increases", "cycle entry", 0, mkRat 1 2, 4, 0⟩]⟩ :
        CellRulesModule).save_rules_to_csv = .ok rows ∧
      CellRulesModule.init.load_rules_from_csv "rules.csv" (some rows) =
        (⟨[], [⟨"cell", "oxygen", "increases", "cycle entry", 0, mkRat 1 2, 4, 0⟩]⟩, none) :=
  c1_roundtrip
    ⟨[], [⟨"cell", "oxygen", "increases", "cycle entry", 0, mkRat 1 2, 4, 0⟩]⟩
    (by decide) (by decide)

/-- C2 counterexample: an import that hits a malformed second row does not
leave the rule list as it was — the well-formed first row has already been
appended when the error is raised. -/
theorem c2_no_partial_application_counterexample :
    CellRulesModule.init.load_rules_from_csv "bad.csv"
      (some [["cell", "oxygen", "increases", "cycle entry", "0", "1/2", "4", "0"],
             ["a", "b"]]) =
      (⟨[], [⟨"cell", "oxygen", "increases", "cycle entry", 0, mkRat 1 2, 4, 0⟩]⟩,
        some (.formatError "Expected 8 columns but got 2")) ∧
    (⟨[], [⟨"cell", "oxygen", "increases", "cycle entry", 0, mkRat 1 2, 4, 0⟩]⟩ :
        CellRulesModule).rules ≠ CellRulesModule.init.rules := by
  decide

/-- C2 (amended): an import with a malformed row raises a FormatError and
aborts at that row, but the rules parsed from the rows before the first
malformed row remain appended to the store (the import is not atomic). -/
theorem c2_import_aborts_after_partial_append :
    ∀ (m : CellRulesModule) (fname : String) (rows : List (List String)),
    (∃ row ∈ rows, blankRow row = false ∧ rowFails row = true) →
    ∃ msg, m.load_rules_from_csv fname (some rows) =
      (⟨m.rulesets, m.rules ++ goodPrefixRules rows⟩, some (.formatError msg)) := by
  intro m fname rows h
  exact loadRows_malformed rows m h

/-- C2 witness: the abort theorem applied to a concrete two-row file whose
second row is malformed. -/
theorem c2_import_aborts_witness :
    ∃ msg, CellRulesModule.init.load_rules_from_csv "bad.csv"
      (some [["cell", "oxygen", "increases", "cycle entry", "0", "1/2", "4", "0"],
             ["a", "b"]]) =
      (⟨CellRulesModule.init.rulesets, CellRulesModule.init.rules ++
          goodPrefixRules [["cell", "oxygen", "increases", "cycle entry", "0", "1/2", "4", "0"],
             ["a", "b"]]⟩,
        some (.formatError msg)) :=
  c2_import_aborts_after_partial_append CellRulesModule.init "bad.csv"
    [["cell", "oxygen", "increases", "cycle entry", "0", "1/2", "4", "0"], ["a", "b"]]
    (by decide)

/-- C3: `add_rule` rejects with InvalidArgument every direction other than
exactly "increases"/"decreases" and every apply_to_dead other than 0/1; on
valid arguments it appends the new rule at the end of the ordered list, which
every subsequent read (`get_rules`) and serialize (`save_rules_to_csv`)
preserves in insertion order. -/
theorem c3_add_rule_validation :
    (∀ (m : CellRulesModule) (ct sg dir bh : String) (sv hm hp : Rat) (ad : Int),
      dir ≠ "increases" ∧ dir ≠ "decreases" →
      ∃ s, m.add_rule ct sg dir bh sv hm hp ad = .error (.invalidArgument s)) ∧
    (∀ (m : CellRulesModule) (ct sg dir bh : String) (sv hm hp : Rat) (ad : Int),
      ad ≠ 0 ∧ ad ≠ 1 →
      ∃ s, m.add_rule ct sg dir bh sv hm hp ad = .error (.invalidArgument s)) ∧
    (∀ (m : CellRulesModule) (ct sg dir bh : String) (sv hm hp : Rat) (ad : Int),
      dir = "increases" ∨ dir = "decreases" → ad = 0 ∨ ad = 1 →
      ∃ m' : CellRulesModule, m.add_rule ct sg dir bh sv hm hp ad = .ok m' ∧
        m'.get_rules = m.get_rules ++ [⟨ct, sg, dir, bh, sv, hm, hp, ad⟩] ∧
        m'.save_rules_to_csv =
          .ok ((m.get_rules ++
            ([⟨ct, sg, dir, bh, sv, hm, hp, ad⟩] : List Rule)).map ruleToRow)) := by
  refine ⟨?_, ?_, ?_⟩
  · intro m ct sg dir bh sv hm hp ad h
    simp only [CellRulesModule.add_rule, if_pos h]
    exact ⟨_, rfl⟩
  · intro m ct sg dir bh sv hm hp ad h
    by_cases hd : dir ≠ "increases" ∧ dir ≠ "decreases"
    · simp only [CellRulesModule.add_rule, if_pos hd]
      exact ⟨_, rfl⟩
    · simp only [CellRulesModule.add_rule, if_neg hd, if_pos h]
      exact ⟨_, rfl⟩
  · intro m ct sg dir bh sv hm hp ad hdir had
    have h1 : ¬ (dir ≠ "increases" ∧ dir ≠ "decreases") := by
      rcases hdir with rfl | rfl <;> simp
    have h2 : ¬ (ad ≠ 0 ∧ ad ≠ 1) := by
      rcases had with rfl | rfl <;> simp
    simp only [CellRulesModule.add_rule, if_neg h1, if_neg h2]
    refine ⟨_, rfl, rfl, ?_⟩
    simp [CellRulesModule.save_rules_to_csv, CellRulesModule.get_rules]

/-- C3 witness: the three clauses of the validation theorem at concrete
arguments — a capitalized direction is rejected, apply_to_dead 2 is
rejected, and a valid call appends the rule. -/
theorem c3_add_rule_validation_witness :
    (∃ s, CellRulesModule.init.add_rule "c" "o" "Increases" "b" 0 (mkRat 1 2) 4 0 =
      .error (.invalidArgument s)) ∧
    (∃ s, CellRulesModule.init.add_rule "c" "o" "increases" "b" 0 (mkRat 1 2) 4 2 =
      .error (.invalidArgument s)) ∧
    (∃ m' : CellRulesModule,
      CellRulesModule.init.add_rule "c" "o" "increases" "b" 0 (mkRat 1 2) 4 1 =
      .ok m' ∧
      m'.get_rules = CellRulesModule.init.get_rules ++
        [⟨"c", "o", "increases", "b", 0, mkRat 1 2, 4, 1⟩] ∧
      m'.save_rules_to_csv =
        .ok ((CellRulesModule.init.get_rules ++
          ([⟨"c", "o", "increases", "b", 0, mkRat 1 2, 4, 1⟩] : List Rule)).map ruleToRow)) :=
  ⟨c3_add_rule_validation.1 CellRulesModule.init "c" "o" "Increases" "b" 0 (mkRat 1 2) 4 0
      (by decide),
   c3_add_rule_validation.2.1 CellRulesModule.init "c" "o" "increases" "b" 0 (mkRat 1 2) 4 2
      (by decide),
   c3_add_rule_validation.2.2 CellRulesModule.init "c" "o" "increases" "b" 0 (mkRat 1 2) 4 1
      (by decide) (by decide)⟩

/-- C4 counterexample: a row whose eighth column is "5" (not literal 0 or 1)
is accepted by the import — no FormatError is raised and the rule is stored
with apply_to_dead = 5, contradicting the 0/1 literal requirement. -/
theorem c4_col8_not_restricted_counterexample :
    CellRulesModule.init.load_rules_from_csv "f"
      (some [["cell", "oxygen", "increases", "cycle entry", "0", "1/2", "4", "5"]]) =
      (⟨[], [⟨"cell", "oxygen", "increases", "cycle entry", 0, mkRat 1 2, 4, 5⟩]⟩, none) := by
  decide

/-- C4 (amended): table import fails with NotFound on a missing path; raises
a FormatError when some non-blank row has fewer than 8 fields or fails to
parse (columns 5-7 as numbers, column 8 as an integer — any integer, not only
the literals 0/1); silently skips blank rows; strips the string fields of a
parsed row of surrounding whitespace; and on success appends the parsed rows
in file order after the pre-existing rules. -/
theorem c4_import_error_contract :
    (∀ (m : CellRulesModule) (fname : String),
      m.load_rules_from_csv fname none =
        (m, some (.notFound ("Rules file " ++ fname ++ " not found")))) ∧
    (∀ (m : CellRulesModule) (fname : String) (rows : List (List String)),
      (∃ row ∈ rows, blankRow row = false ∧ row.length < 8) →
      ∃ msg, (m.load_rules_from_csv fname (some rows)).2 = some (.formatError msg)) ∧
    (∀ (m : CellRulesModule) (fname : String) (rows : List (List String)),
      (∃ row ∈ rows, blankRow row = false ∧ rowFails row = true) →
      ∃ msg, (m.load_rules_from_csv fname (some rows)).2 = some (.formatError msg)) ∧
    (∀ (m : CellRulesModule) (row : List String) (rest : List (List String)),
      blankRow row = true → loadRows m (row :: rest) = loadRows m rest) ∧
    (∀ (row : List String) (r : Rule), parseRow row = .ok r →
      ∃ c0 c1 c2 c3 c4 c5 c6 c7 tail,
        row = c0 :: c1 :: c2 :: c3 :: c4 :: c5 :: c6 :: c7 :: tail ∧
        r.cell_type = pstrip c0 ∧ r.signal = pstrip c1 ∧
        r.direction = pstrip c2 ∧ r.behavior = pstrip c3) ∧
    (∀ (m : CellRulesModule) (fname : String) (rows : List (List String))
      (res : CellRulesModule),
      m.load_rules_from_csv fname (some rows) = (res, none) →
      res = ⟨m.rulesets, m.rules ++ goodPrefixRules rows⟩) := by
  refine ⟨?_, ?_, ?_, ?_, ?_, ?_⟩
  · intro m fname
    rfl
  · intro m fname rows h
    obtain ⟨row, hmem, hb, hlen⟩ := h
    obtain ⟨msg, hm⟩ := loadRows_malformed rows m ⟨row, hmem, hb, rowFails_of_short hlen⟩
    exact ⟨msg, by rw [show m.load_rules_from_csv fname (some rows) = loadRows m rows from rfl, hm]⟩
  · intro m fname rows h
    obtain ⟨msg, hm⟩ := loadRows_malformed rows m h
    exact ⟨msg, by rw [show m.load_rules_from_csv fname (some rows) = loadRows m rows from rfl, hm]⟩
  · intro m row rest h
    simp [loadRows, h]
  · intro row r h
    exact parseRow_ok_shape h
  · intro m fname rows res h
    exact loadRows_success rows m res h

/-- C4 witness: the six clauses of the import contract at concrete inputs. -/
theorem c4_import_error_contract_witness :
    (CellRulesModule.init.load_rules_from_csv "gone.csv" none =
      (CellRulesModule.init, some (.notFound "Rules file gone.csv not found"))) ∧
    (∃ msg, (CellRulesModule.init.load_rules_from_csv "f" (some [["a", "b"]])).2 =
      some (.formatError msg)) ∧
    (∃ msg, (CellRulesModule.init.load_rules_from_csv "f"
      (some [["a", "b", "c", "d", "x", "0", "0", "0"]])).2 = some (.formatError msg)) ∧
    (loadRows CellRulesModule.init [[" ", ""], ["a", "b"]] =
      loadRows CellRulesModule.init [["a", "b"]]) ∧
    (∃ c0 c1 c2 c3 c4 c5 c6 c7 tail,
      [" cell ", "oxygen", "increases", "cycle entry", "0", "1/2", "4", "0"] =
        c0 :: c1 :: c2 :: c3 :: c4 :: c5 :: c6 :: c7 :: tail ∧
      (⟨"cell", "oxygen", "increases", "cycle entry", 0, mkRat 1 2, 4, 0⟩ : Rule).cell_type =
        pstrip c0 ∧
      (⟨"cell", "oxygen", "increases", "cycle entry", 0, mkRat 1 2, 4, 0⟩ : Rule).signal =
        pstrip c1 ∧
      (⟨"cell", "oxygen", "increases", "cycle entry", 0, mkRat 1 2, 4, 0⟩ : Rule).direction =
        pstrip c2 ∧
      (⟨"cell", "oxygen", "increases", "cycle entry", 0, mkRat 1 2, 4, 0⟩ : Rule).behavior =
        pstrip c3) ∧
    ((⟨[], [⟨"cell", "oxygen", "increases", "cycle entry", 0, mkRat 1 2, 4, 0⟩]⟩ :
        CellRulesModule) =
      ⟨CellRulesModule.init.rulesets, CellRulesModule.init.rules ++
        goodPrefixRules [["cell", "oxygen", "increases", "cycle entry", "0", "1/2", "4", "0"]]⟩) :=
  ⟨c4_import_error_contract.1 CellRulesModule.init "gone.csv",
   c4_import_error_contract.2.1 CellRulesModule.init "f" [["a", "b"]] (by decide),
   c4_import_error_contract.2.2.1 CellRulesModule.init "f"
     [["a", "b", "c", "d", "x", "0", "0", "0"]] (by decide),
   c4_import_error_contract.2.2.2.1 CellRulesModule.init [" ", ""] [["a", "b"]] (by decide),
   c4_import_error_contract.2.2.2.2.1
     [" cell ", "oxygen", "increases", "cycle entry", "0", "1/2", "4", "0"]
     ⟨"cell", "oxygen", "increases", "cycle entry", 0, mkRat 1 2, 4, 0⟩ (by decide),
   c4_import_error_contract.2.2.2.2.2 CellRulesModule.init "f"
     [["cell", "oxygen", "increases", "cycle entry", "0", "1/2", "4", "0"]]
     ⟨[], [⟨"cell", "oxygen", "increases", "cycle entry", 0, mkRat 1 2, 4, 0⟩]⟩ (by decide)⟩

/-- C10 counterexample: a row with 9 fields is not accepted when its fifth
field fails numeric parsing — having 8 or more fields does not suffice for
acceptance. -/
theorem c10_long_row_rejected_counterexample :
    CellRulesModule.init.load_rules_from_csv "f"
      (some [["a", "b", "c", "d", "x", "0", "0", "0", "e"]]) =
      (CellRulesModule.init, some (.formatError "could not convert field to a number")) := by
  decide

/-- C10 (amended): rows with 8 or more fields always pass the column-count
check — any fields after the eighth are ignored and the rule is built from
the first 8 fields alone, which must still parse; only rows with fewer than
8 fields fail the count check, and a row with at least 8 fields either
parses or is rejected solely for an unparsable numeric field. -/
theorem c10_extra_fields_ignored :
    (∀ (c0 c1 c2 c3 c4 c5 c6 c7 : String) (extra : List String),
      parseRow (c0 :: c1 :: c2 :: c3 :: c4 :: c5 :: c6 :: c7 :: extra) =
        parseRow [c0, c1, c2, c3, c4, c5, c6, c7]) ∧
    (∀ row : List String, row.length < 8 →
      parseRow row = .error (.formatError
        ("Expected 8 columns but got " ++ encodeInt row.length))) ∧
    (∀ row : List String, 8 ≤ row.length →
      (∃ r, parseRow row = .ok r) ∨
      parseRow row = .error (.formatError "could not convert field to a number")) := by
  refine ⟨?_, ?_, ?_⟩
  · intro c0 c1 c2 c3 c4 c5 c6 c7 extra
    rfl
  · intro row h
    exact parseRow_short h
  · intro row h
    rcases row with _ | ⟨c0, _ | ⟨c1, _ | ⟨c2, _ | ⟨c3, _ | ⟨c4, _ | ⟨c5, _ | ⟨c6, _ | ⟨c7, tail⟩⟩⟩⟩⟩⟩⟩⟩
    · simp at h
    · simp at h
    · simp at h
    · simp at h
    · simp at h
    · simp at h
    · simp at h
    · simp at h
    · rcases h4 : decodeRat c4 with _ | sv <;>
        rcases h5 : decodeRat c5 with _ | hm5 <;>
          rcases h6 : decodeRat c6 with _ | hp6 <;>
            rcases h7 : decodeInt c7 with _ | ad7 <;>
              simp only [parseRow, h4, h5, h6, h7] <;>
                first
                  | exact Or.inl ⟨_, rfl⟩
                  | exact Or.inr rfl
                  | (right; trivial)

/-- C10 witness: the three clauses at concrete rows — a ninth field is
ignored, a 2-field row gets the count error, a 9-field row either parses or
fails on a numeric field. -/
theorem c10_extra_fields_ignored_witness :
    (parseRow ["a", "b", "c", "d", "0", "1/2", "4", "0", "extra"] =
      parseRow ["a", "b", "c", "d", "0", "1/2", "4", "0"]) ∧
    (parseRow ["a", "b"] = .error (.formatError
      ("Expected 8 columns but got " ++ encodeInt ([("a" : String), "b"].length)))) ∧
    ((∃ r, parseRow ["a", "b", "c", "d", "x", "0", "0", "0", "e"] = .ok r) ∨
      parseRow ["a", "b", "c", "d", "x", "0", "0", "0", "e"] =
        .error (.formatError "could not convert field to a number")) :=
  ⟨c10_extra_fields_ignored.1 "a" "b" "c" "d" "0" "1/2" "4" "0" ["extra"],
   c10_extra_fields_ignored.2.1 ["a", "b"] (by decide),
   c10_extra_fields_ignored.2.2 ["a", "b", "c", "d", "x", "0", "0", "0", "e"] (by decide)⟩

/-! ## XML codec lemmas and claims (cell rules) -/

theorem processRulesetElem_rules (acc : CellRulesModule) (el : XmlNode) :
    (processRulesetElem acc el).rules = acc.rules := by
  rcases hf : el.findChild "folder" with _ | fe <;>
    rcases hn : el.findChild "filename" with _ | ne <;>
      simp [processRulesetElem, hf, hn]

theorem processRulesetElem_rulesets_congr (rs : List (String × RuleSet))
    (ru ru' : List Rule) (el : XmlNode) :
    (processRulesetElem ⟨rs, ru⟩ el).rulesets =
      (processRulesetElem ⟨rs, ru'⟩ el).rulesets := by
  rcases hf : el.findChild "folder" with _ | fe <;>
    rcases hn : el.findChild "filename" with _ | ne <;>
      simp [processRulesetElem, hf, hn]

theorem foldl_processRulesetElem_rulesets (els : List XmlNode) :
    ∀ (rs : List (String × RuleSet)) (ru ru' : List Rule),
    (els.foldl processRulesetElem ⟨rs, ru⟩).rulesets =
      (els.foldl processRulesetElem ⟨rs, ru'⟩).rulesets := by
  induction els with
  | nil => intro rs ru ru'; rfl
  | cons el rest ih =>
    intro rs ru ru'
    simp only [List.foldl_cons]
    have h1 : processRulesetElem ⟨rs, ru⟩ el =
        ⟨(processRulesetElem ⟨rs, ru⟩ el).rulesets, ru⟩ := by
      have := processRulesetElem_rules ⟨rs, ru⟩ el
      cases hpe : processRulesetElem ⟨rs, ru⟩ el
      rw [hpe] at this
      simp at this ⊢
      exact this
    have h2 : processRulesetElem ⟨rs, ru'⟩ el =
        ⟨(processRulesetElem ⟨rs, ru'⟩ el).rulesets, ru'⟩ := by
      have := processRulesetElem_rules ⟨rs, ru'⟩ el
      cases hpe : processRulesetElem ⟨rs, ru'⟩ el
      rw [hpe] at this
      simp at this ⊢
      exact this
    rw [h1, h2, processRulesetElem_rulesets_congr rs ru ru' el]
    exact ih _ ru ru'

/-- C5: rule-set XML deserialization is a no-op on an absent element (prior
registry survives); on a present element the resulting registry does not
depend on the prior registry (full replacement); duplicate filename stems
get numeric suffixes, so two ruleset elements with stem "rules" yield keys
"rules" and "rules_1". -/
theorem c5_deserialize_replace_and_suffix :
    (∀ m : CellRulesModule, m.load_from_xml none = m) ∧
    (∀ (m : CellRulesModule) (el : XmlNode),
      (m.load_from_xml (some el)).rulesets =
        (CellRulesModule.init.load_from_xml (some el)).rulesets) ∧
    (((CellRulesModule.init.load_from_xml (some (.mk "cell_rules" [] none
        [.mk "rulesets" [] none
          [.mk "ruleset" [] none
            [.mk "folder" [] (some "./config") [],
             .mk "filename" [] (some "rules.csv") []],
           .mk "ruleset" [] none
            [.mk "folder" [] (some "./config") [],
             .mk "filename" [] (some "rules.csv") []]]]))).rulesets.map
        Prod.fst) = ["rules", "rules_1"]) := by
  refine ⟨?_, ?_, ?_⟩
  · intro m
    rfl
  · intro m el
    show ((match el.findChild "rulesets" with
      | none => (⟨[], m.rules⟩ : CellRulesModule)
      | some rs => (rs.findAll "ruleset").foldl processRulesetElem ⟨[], m.rules⟩)).rulesets =
      ((match el.findChild "rulesets" with
      | none => (⟨[], CellRulesModule.init.rules⟩ : CellRulesModule)
      | some rs =>
        (rs.findAll "ruleset").foldl processRulesetElem ⟨[], CellRulesModule.init.rules⟩)).rulesets
    rcases h : el.findChild "rulesets" with _ | rs
    · rfl
    · exact foldl_processRulesetElem_rulesets _ [] m.rules CellRulesModule.init.rules
  · decide

/-- C6 counterexample: a ruleset element that has a folder child but lacks
only the filename child is not "lacking both", yet it is skipped — the
registry stays empty. -/
theorem c6_registration_counterexample :
    (CellRulesModule.init.load_from_xml (some (.mk "cell_rules" [] none
      [.mk "rulesets" [] none
        [.mk "ruleset" [] none [.mk "folder" [] (some "./cfg") []]]]))).rulesets = [] := by
  decide

/-- C6 (amended): a ruleset element is skipped when it lacks its folder child
or its filename child (either one suffices); every element carrying both
children — whatever attributes it carries — is registered, with one record
appended whose protocol/version/format fields are read with defaults
"CBHG"/"3.0"/"csv" and whose enabled field is the lowercased enabled
attribute compared to "true"; an attribute absent from the attribute dict
of the element yields its default (in particular enabled=false), key by key,
independently of which other attributes are present. -/
theorem c6_ruleset_element_registration :
    (∀ (acc : CellRulesModule) (el : XmlNode),
      el.findChild "folder" = none ∨ el.findChild "filename" = none →
      processRulesetElem acc el = acc) ∧
    (∀ (acc : CellRulesModule) (el : XmlNode) (fe ne : XmlNode),
      el.findChild "folder" = some fe → el.findChild "filename" = some ne →
      ∃ name folder filename,
        processRulesetElem acc el =
          ⟨acc.rulesets ++ [(name,
            ⟨folder, filename,
             decide (strLower (el.attr "enabled" "false") = "true"),
             el.attr "protocol" "CBHG", el.attr "version" "3.0",
             el.attr "format" "csv"⟩)],
           acc.rules⟩) ∧
    (∀ el : XmlNode, el.attrs.find? (fun p => p.1 = "protocol") = none →
      el.attr "protocol" "CBHG" = "CBHG") ∧
    (∀ el : XmlNode, el.attrs.find? (fun p => p.1 = "version") = none →
      el.attr "version" "3.0" = "3.0") ∧
    (∀ el : XmlNode, el.attrs.find? (fun p => p.1 = "format") = none →
      el.attr "format" "csv" = "csv") ∧
    (∀ el : XmlNode, el.attrs.find? (fun p => p.1 = "enabled") = none →
      decide (strLower (el.attr "enabled" "false") = "true") = false) := by
  refine ⟨?_, ?_, ?_, ?_, ?_, ?_⟩
  · intro acc el h
    rcases h with h | h
    · rcases hn : el.findChild "filename" with _ | ne <;>
        simp [processRulesetElem, h, hn]
    · rcases hf : el.findChild "folder" with _ | fe <;>
        simp [processRulesetElem, hf, h]
  · intro acc el fe ne hf hn
    simp only [processRulesetElem, hf, hn]
    exact ⟨_, _, _, rfl⟩
  · intro el h
    simp only [XmlNode.attr, h]
  · intro el h
    simp only [XmlNode.attr, h]
  · intro el h
    simp only [XmlNode.attr, h]
  · intro el h
    simp only [XmlNode.attr, h]
    decide

/-- C6 witness: the clauses at concrete elements — one lacking the filename
child is skipped; a spec-conformant element carrying both children and all
four attributes is registered with those attribute values; and on an element
carrying only a protocol attribute (and on one carrying only enabled) each
absent attribute falls back to its default, enabled to false. -/
theorem c6_ruleset_element_registration_witness :
    (processRulesetElem CellRulesModule.init
      (.mk "ruleset" [] none [.mk "folder" [] (some "./cfg") []]) =
      CellRulesModule.init) ∧
    (∃ name folder filename,
      processRulesetElem CellRulesModule.init
        (.mk "ruleset"
          [("protocol", "CBHG"), ("version", "3.0"), ("format", "csv"),
           ("enabled", "true")] none
          [.mk "folder" [] (some "./cfg") [],
           .mk "filename" [] (some "rules.csv") []]) =
        ⟨CellRulesModule.init.rulesets ++
          [(name,
            ⟨folder, filename,
             decide (strLower ((XmlNode.mk "ruleset"
               [("protocol", "CBHG"), ("version", "3.0"), ("format", "csv"),
                ("enabled", "true")] none
               [.mk "folder" [] (some "./cfg") [],
                .mk "filename" [] (some "rules.csv") []]).attr "enabled" "false") = "true"),
             (XmlNode.mk "ruleset"
               [("protocol", "CBHG"), ("version", "3.0"), ("format", "csv"),
                ("enabled", "true")] none
               [.mk "folder" [] (some "./cfg") [],
                .mk "filename" [] (some "rules.csv") []]).attr "protocol" "CBHG",
             (XmlNode.mk "ruleset"
               [("protocol", "CBHG"), ("version", "3.0"), ("format", "csv"),
                ("enabled", "true")] none
               [.mk "folder" [] (some "./cfg") [],
                .mk "filename" [] (some "rules.csv") []]).attr "version" "3.0",
             (XmlNode.mk "ruleset"
               [("protocol", "CBHG"), ("version", "3.0"), ("format", "csv"),
                ("enabled", "true")] none
               [.mk "folder" [] (some "./cfg") [],
                .mk "filename" [] (some "rules.csv") []]).attr "format" "csv"⟩)],
         CellRulesModule.init.rules⟩) ∧
    ((XmlNode.mk "ruleset" [("enabled", "true")] none []).attr "protocol" "CBHG" =
      "CBHG") ∧
    ((XmlNode.mk "ruleset" [("protocol", "ABC")] none []).attr "version" "3.0" =
      "3.0") ∧
    ((XmlNode.mk "ruleset" [("protocol", "ABC")] none []).attr "format" "csv" =
      "csv") ∧
    (decide (strLower ((XmlNode.mk "ruleset" [("protocol", "ABC")] none []).attr
      "enabled" "false") = "true") = false) :=
  ⟨c6_ruleset_element_registration.1 CellRulesModule.init
      (.mk "ruleset" [] none [.mk "folder" [] (some "./cfg") []])
      (Or.inr rfl),
   c6_ruleset_element_registration.2.1 CellRulesModule.init
      (.mk "ruleset"
        [("protocol", "CBHG"), ("version", "3.0"), ("format", "csv"),
         ("enabled", "true")] none
        [.mk "folder" [] (some "./cfg") [],
         .mk "filename" [] (some "rules.csv") []])
      (.mk "folder" [] (some "./cfg") [])
      (.mk "filename" [] (some "rules.csv") [])
      rfl rfl,
   c6_ruleset_element_registration.2.2.1
      (.mk "ruleset" [("enabled", "true")] none []) rfl,
   c6_ruleset_element_registration.2.2.2.1
      (.mk "ruleset" [("protocol", "ABC")] none []) rfl,
   c6_ruleset_element_registration.2.2.2.2.1
      (.mk "ruleset" [("protocol", "ABC")] none []) rfl,
   c6_ruleset_element_registration.2.2.2.2.2
      (.mk "ruleset" [("protocol", "ABC")] none []) rfl⟩

/-- C7: serializing a store with zero registered RuleSets emits a cell_rules
element whose rulesets child holds exactly the default disabled placeholder
ruleset (protocol "CBHG", version "3.0", format "csv", enabled "false",
folder "./config", filename "cell_rules.csv"), and in every case a trailing
empty settings element is the last child of cell_rules. -/
theorem c7_empty_store_serialization :
    (∀ (m : CellRulesModule) (parent : XmlNode), m.rulesets = [] →
      m.add_to_xml parent = parent.appendChild
        (.mk "cell_rules" [] none
          [.mk "rulesets" [] none
            [.mk "ruleset"
              [("protocol", "CBHG"), ("version", "3.0"), ("format", "csv"),
               ("enabled", "false")]
              none
              [.mk "folder" [] (some "./config") [],
               .mk "filename" [] (some "cell_rules.csv") []]],
           .mk "settings" [] none []])) ∧
    (∀ m : CellRulesModule, (cellRulesXml m).children.getLast? =
      some (.mk "settings" [] none [])) := by
  constructor
  · intro m parent h
    unfold CellRulesModule.add_to_xml cellRulesXml
    rw [h]
    rfl
  · intro m
    rfl

/-- C7 witness: the serialization theorem at the empty store under a concrete
parent, plus the trailing-settings clause at the empty store. -/
theorem c7_empty_store_serialization_witness :
    (CellRulesModule.init.add_to_xml (.mk "root" [] none []) =
      (XmlNode.mk "root" [] none []).appendChild
        (.mk "cell_rules" [] none
          [.mk "rulesets" [] none
            [.mk "ruleset"
              [("protocol", "CBHG"), ("version", "3.0"), ("format", "csv"),
               ("enabled", "false")]
              none
              [.mk "folder" [] (some "./config") [],
               .mk "filename" [] (some "cell_rules.csv") []]],
           .mk "settings" [] none []])) ∧
    ((cellRulesXml CellRulesModule.init).children.getLast? =
      some (.mk "settings" [] none [])) :=
  ⟨c7_empty_store_serialization.1 CellRulesModule.init (.mk "root" [] none []) rfl,
   c7_empty_store_serialization.2 CellRulesModule.init⟩

/-! ## Boolean-Network claims -/

/-- C8: while the Boolean-Network module is disabled, every mutator fails
with an InvalidState condition and serialization appends nothing to the
parent; enabling installs the fixed defaults time_step=12.0, scaling=10.0,
start_time=0.0 in the settings bag. -/
theorem c8_disabled_mutators_invalid_state :
    (∀ (m : PhysiBoSSModule) (t : Rat), m.enabled = false →
      ∃ s, m.set_time_step t = .error (.invalidState s)) ∧
    (∀ (m : PhysiBoSSModule) (v : Rat), m.enabled = false →
      ∃ s, m.set_scaling v = .error (.invalidState s)) ∧
    (∀ (m : PhysiBoSSModule) (node : String) (b : Bool), m.enabled = false →
      ∃ s, m.add_initial_value node b = .error (.invalidState s)) ∧
    (∀ (m : PhysiBoSSModule) (cl node : String) (b : Bool), m.enabled = false →
      ∃ s, m.add_mutation cl node b = .error (.invalidState s)) ∧
    (∀ (m : PhysiBoSSModule) (name : String) (v : Rat), m.enabled = false →
      ∃ s, m.add_parameter name v = .error (.invalidState s)) ∧
    (∀ (m : PhysiBoSSModule) (parent : XmlNode), m.enabled = false →
      m.add_to_xml parent = parent) ∧
    (∀ (prev : PhysiBoSSModule) (file : String)
      (iv : List (String × Bool)) (mu : List (String × List (String × Bool)))
      (pa : List (String × Rat)),
      ∃ s : PhysiBossSettings,
        (prev.enable_physiboss file iv mu pa).get_settings = some s ∧
        s.time_step = 12 ∧ s.scaling = 10 ∧ s.start_time = 0) := by
  refine ⟨?_, ?_, ?_, ?_, ?_, ?_, ?_⟩
  · intro m t h
    simp [PhysiBoSSModule.set_time_step, h]
  · intro m v h
    simp [PhysiBoSSModule.set_scaling, h]
  · intro m node b h
    simp [PhysiBoSSModule.add_initial_value, h]
  · intro m cl node b h
    simp [PhysiBoSSModule.add_mutation, h]
  · intro m name v h
    simp [PhysiBoSSModule.add_parameter, h]
  · intro m parent h
    simp [PhysiBoSSModule.add_to_xml, h]
  · intro prev file iv mu pa
    exact ⟨_, rfl, rfl, rfl, rfl⟩

/-- C8 witness: the clauses at the freshly constructed (disabled) module and
a concrete enable call. -/
theorem c8_disabled_mutators_invalid_state_witness :
    (∃ s, PhysiBoSSModule.init.set_time_step 1 = .error (.invalidState s)) ∧
    (∃ s, PhysiBoSSModule.init.set_scaling 1 = .error (.invalidState s)) ∧
    (∃ s, PhysiBoSSModule.init.add_initial_value "A" true = .error (.invalidState s)) ∧
    (∃ s, PhysiBoSSModule.init.add_mutation "line" "A" false = .error (.invalidState s)) ∧
    (∃ s, PhysiBoSSModule.init.add_parameter "k" 1 = .error (.invalidState s)) ∧
    (PhysiBoSSModule.init.add_to_xml (.mk "root" [] none []) = .mk "root" [] none []) ∧
    (∃ s : PhysiBossSettings,
      (PhysiBoSSModule.init.enable_physiboss "m.bnd" [] [] []).get_settings = some s ∧
      s.time_step = 12 ∧ s.scaling = 10 ∧ s.start_time = 0) :=
  ⟨c8_disabled_mutators_invalid_state.1 PhysiBoSSModule.init 1 rfl,
   c8_disabled_mutators_invalid_state.2.1 PhysiBoSSModule.init 1 rfl,
   c8_disabled_mutators_invalid_state.2.2.1 PhysiBoSSModule.init "A" true rfl,
   c8_disabled_mutators_invalid_state.2.2.2.1 PhysiBoSSModule.init "line" "A" false rfl,
   c8_disabled_mutators_invalid_state.2.2.2.2.1 PhysiBoSSModule.init "k" 1 rfl,
   c8_disabled_mutators_invalid_state.2.2.2.2.2.1 PhysiBoSSModule.init
     (.mk "root" [] none []) rfl,
   c8_disabled_mutators_invalid_state.2.2.2.2.2.2 PhysiBoSSModule.init "m.bnd" [] [] []⟩

/-! ## Round-trip lemmas for the physiboss fragment -/

theorem filter_map_tag_roundtrip {α : Type} (f : α → XmlNode) (g : XmlNode → α)
    (T : String) (htag : ∀ a, (f a).tag = T) (hg : ∀ a, g (f a) = a) :
    ∀ l : List α, ((l.map f).filter (fun c => c.tag = T)).map g = l := by
  intro l
  induction l with
  | nil => rfl
  | cons a rest ih =>
    simp only [List.map_cons, List.filter_cons]
    rw [if_pos (by simp [htag a])]
    simp [hg a, ih]

theorem pbReadBoolEntry_pbIVEntryXml (p : String × Bool) :
    pbReadBoolEntry (pbIVEntryXml p) = p := by
  obtain ⟨n, b⟩ := p
  cases b <;>
    simp [pbReadBoolEntry, pbIVEntryXml, XmlNode.attr, XmlNode.attrs, XmlNode.text, boolText]

theorem pbReadBoolEntry_pbMutValueXml (q : String × Bool) :
    pbReadBoolEntry (pbMutValueXml q) = q := by
  obtain ⟨n, b⟩ := q
  cases b <;>
    simp [pbReadBoolEntry, pbMutValueXml, XmlNode.attr, XmlNode.attrs, XmlNode.text, boolText]

theorem pbReadMutEntry_pbMutXml (p : String × List (String × Bool)) :
    pbReadMutEntry (pbMutXml p) = p := by
  obtain ⟨cl, muts⟩ := p
  simp only [pbReadMutEntry, pbMutXml, XmlNode.findAll, XmlNode.children,
    XmlNode.attr, XmlNode.attrs]
  simp [filter_map_tag_roundtrip pbMutValueXml pbReadBoolEntry
    "physiboss_mutation_value" (fun a => rfl) pbReadBoolEntry_pbMutValueXml muts]

theorem pbReadParamEntry_pbParamXml (p : String × Rat) :
    pbReadParamEntry (pbParamXml p) = p := by
  obtain ⟨n, v⟩ := p
  simp [pbReadParamEntry, pbParamXml, XmlNode.attr, XmlNode.attrs, XmlNode.text,
    decodeRat_encodeRat]

theorem physibossXml_findAll_iv (s : PhysiBossSettings) :
    (physibossXml s).findAll "physiboss_initial_values" =
      if s.initial_values.isEmpty then []
      else [.mk "physiboss_initial_values" [] none (s.initial_values.map pbIVEntryXml)] := by
  unfold physibossXml pbOptionalBlocks XmlNode.findAll
  by_cases h1 : s.initial_values.isEmpty <;>
    by_cases h2 : s.mutations.isEmpty <;>
      by_cases h3 : s.parameters.isEmpty <;>
        simp [h1, h2, h3, XmlNode.tag, XmlNode.children, pbSettingsXml]

theorem physibossXml_findAll_mut (s : PhysiBossSettings) :
    (physibossXml s).findAll "physiboss_mutations" =
      if s.mutations.isEmpty then []
      else [.mk "physiboss_mutations" [] none (s.mutations.map pbMutXml)] := by
  unfold physibossXml pbOptionalBlocks XmlNode.findAll
  by_cases h1 : s.initial_values.isEmpty <;>
    by_cases h2 : s.mutations.isEmpty <;>
      by_cases h3 : s.parameters.isEmpty <;>
        simp [h1, h2, h3, XmlNode.tag, XmlNode.children, pbSettingsXml]

theorem physibossXml_findAll_param (s : PhysiBossSettings) :
    (physibossXml s).findAll "physiboss_parameters" =
      if s.parameters.isEmpty then []
      else [.mk "physiboss_parameters" [] none (s.parameters.map pbParamXml)] := by
  unfold physibossXml pbOptionalBlocks XmlNode.findAll
  by_cases h1 : s.initial_values.isEmpty <;>
    by_cases h2 : s.mutations.isEmpty <;>
      by_cases h3 : s.parameters.isEmpty <;>
        simp [h1, h2, h3, XmlNode.tag, XmlNode.children, pbSettingsXml]

theorem pbParseInitialValues_physibossXml (s : PhysiBossSettings) :
    pbParseInitialValues (physibossXml s) = s.initial_values := by
  unfold pbParseInitialValues
  rw [physibossXml_findAll_iv]
  by_cases h : s.initial_values.isEmpty
  · rw [if_pos h]
    simp [List.isEmpty_iff.mp h]
  · rw [if_neg h]
    simp only [List.map_cons, List.map_nil, List.flatten, XmlNode.findAll,
      XmlNode.children, List.append_nil]
    exact filter_map_tag_roundtrip pbIVEntryXml pbReadBoolEntry
      "physiboss_initial_value" (fun a => rfl) pbReadBoolEntry_pbIVEntryXml _

theorem pbParseMutations_physibossXml (s : PhysiBossSettings) :
    pbParseMutations (physibossXml s) = s.mutations := by
  unfold pbParseMutations
  rw [physibossXml_findAll_mut]
  by_cases h : s.mutations.isEmpty
  · rw [if_pos h]
    simp [List.isEmpty_iff.mp h]
  · rw [if_neg h]
    simp only [List.map_cons, List.map_nil, List.flatten, XmlNode.findAll,
      XmlNode.children, List.append_nil]
    exact filter_map_tag_roundtrip pbMutXml pbReadMutEntry
      "physiboss_mutation" (fun a => rfl) pbReadMutEntry_pbMutXml _

theorem pbParseParameters_physibossXml (s : PhysiBossSettings) :
    pbParseParameters (physibossXml s) = s.parameters := by
  unfold pbParseParameters
  rw [physibossXml_findAll_param]
  by_cases h : s.parameters.isEmpty
  · rw [if_pos h]
    simp [List.isEmpty_iff.mp h]
  · rw [if_neg h]
    simp only [List.map_cons, List.map_nil, List.flatten, XmlNode.findAll,
      XmlNode.children, List.append_nil]
    exact filter_map_tag_roundtrip pbParamXml pbReadParamEntry
      "physiboss_parameter" (fun a => rfl) pbReadParamEntry_pbParamXml _

theorem physibossXml_findChild_settings (s : PhysiBossSettings) :
    (physibossXml s).findChild "physiboss_settings" = some (pbSettingsXml s) := by
  unfold physibossXml XmlNode.findChild
  simp only [XmlNode.children]
  rw [List.find?_cons_of_pos]
  rfl

theorem pbSettingsXml_bnd_file (s : PhysiBossSettings) :
    pbChildText (pbSettingsXml s) "physiboss_bnd_file" = some s.model_file := by
  simp [pbChildText, pbSettingsXml, XmlNode.findChild, XmlNode.children,
    XmlNode.tag, XmlNode.text]

theorem pbSettingsXml_time_step (s : PhysiBossSettings) :
    pbChildText (pbSettingsXml s) "physiboss_time_step" = some (encodeRat s.time_step) := by
  simp [pbChildText, pbSettingsXml, XmlNode.findChild, XmlNode.children,
    XmlNode.tag, XmlNode.text]

theorem pbSettingsXml_scaling (s : PhysiBossSettings) :
    pbChildText (pbSettingsXml s) "physiboss_scaling" = some (encodeRat s.scaling) := by
  simp [pbChildText, pbSettingsXml, XmlNode.findChild, XmlNode.children,
    XmlNode.tag, XmlNode.text]

theorem pbSettingsXml_start_time (s : PhysiBossSettings) :
    pbChildText (pbSettingsXml s) "physiboss_start_time" = some (encodeRat s.start_time) := by
  simp [pbChildText, pbSettingsXml, XmlNode.findChild, XmlNode.children,
    XmlNode.tag, XmlNode.text]

/-- C9: serializing an enabled Boolean-Network module appends the physiboss
fragment, and parsing that fragment back into a fresh module reproduces the
entire settings bag — model file, initial_values, mutations, parameters and
the three numeric settings — by value. -/
theorem c9_boolean_network_roundtrip :
    ∀ (m : PhysiBoSSModule) (s : PhysiBossSettings) (parent : XmlNode),
    m.enabled = true → m.physiboss_settings = some s →
    m.add_to_xml parent = parent.appendChild (physibossXml s) ∧
    PhysiBoSSModule.load_from_xml (some (physibossXml s)) = ⟨true, some s⟩ := by
  intro m s parent he hs
  constructor
  · simp [PhysiBoSSModule.add_to_xml, he, hs]
  · simp only [PhysiBoSSModule.load_from_xml]
    have hattr : (physibossXml s).attr "enabled" "false" = "true" := by
      simp [physibossXml, XmlNode.attr, XmlNode.attrs]
    rw [if_neg (by rw [hattr]; decide)]
    rw [physibossXml_findChild_settings]
    simp only [Option.bind_some, Option.some_bind]
    rw [pbSettingsXml_bnd_file, pbSettingsXml_time_step, pbSettingsXml_scaling,
      pbSettingsXml_start_time]
    simp only [Option.getD_some, Option.some_bind, decodeRat_encodeRat]
    rw [pbParseInitialValues_physibossXml, pbParseMutations_physibossXml,
      pbParseParameters_physibossXml]

/-- C9 witness: the round-trip at the spec's concrete scenario — a module
enabled with initial_values A=true, a lineX mutation B=false, and parameter
k=2.5 serializes and parses back to the same settings. -/
theorem c9_boolean_network_roundtrip_witness :
    (PhysiBoSSModule.init.enable_physiboss "m.bnd" [("A", true)]
        [("lineX", [("B", false)])] [("k", mkRat 5 2)]).add_to_xml
        (.mk "root" [] none []) =
      (XmlNode.mk "root" [] none []).appendChild
        (physibossXml ⟨"m.bnd", [("A", true)], [("lineX", [("B", false)])],
          [("k", mkRat 5 2)], 12, 10, 0⟩) ∧
    PhysiBoSSModule.load_from_xml
        (some (physibossXml ⟨"m.bnd", [("A", true)], [("lineX", [("B", false)])],
          [("k", mkRat 5 2)], 12, 10, 0⟩)) =
      ⟨true, some ⟨"m.bnd", [("A", true)], [("lineX", [("B", false)])],
        [("k", mkRat 5 2)], 12, 10, 0⟩⟩ :=
  c9_boolean_network_roundtrip
    (PhysiBoSSModule.init.enable_physiboss "m.bnd" [("A", true)]
      [("lineX", [("B", false)])] [("k", mkRat 5 2)])
    ⟨"m.bnd", [("A", true)], [("lineX", [("B", false)])], [("k", mkRat 5 2)], 12, 10, 0⟩
    (.mk "root" [] none []) rfl rfl
